import Mathlib

/-!
Shallow embedding of `src/c1_state_machine/p3_atm.rs`: an ATM modelled as a
pure state-transition function. Machine integers (`u64`) are modelled as
`Nat`; the decimal parse of the keystroke register models Rust's
`str::parse::<u64>`, which fails on the empty string and on overflow past
`u64::MAX`. The PIN-hashing collaborator `crate::hash` is not part of the
source under verification; following the spec, which treats it as an opaque
function from an ordered key sequence to a 64-bit fingerprint, the
transition function is parametrized over it.
-/

namespace ATM

/-- The keys on the ATM keypad (Rust `Key`). -/
inductive Key where
  | one
  | two
  | three
  | four
  | enter
deriving DecidableEq

/-- Something you can do to the ATM (Rust `Action`). -/
inductive Action where
  | swipeCard (codeHash : Nat)
  | pressKey (k : Key)
deriving DecidableEq

/-- The various states of authentication possible with the ATM (Rust `Auth`). -/
inductive Auth where
  | waiting
  | authenticating (pinHash : Nat)
  | authenticated
deriving DecidableEq

/-- The ATM state (Rust `struct Atm`). -/
structure Atm where
  cash_inside : Nat
  expected_pin_hash : Auth
  keystroke_register : List Key
deriving DecidableEq

/-- Rust `Atm::add_key_to_register`: clone the state and push the key. -/
def add_key_to_register (s : Atm) (key : Key) : Atm :=
  { s with keystroke_register := s.keystroke_register ++ [key] }

/-- Rust `Atm::is_correct_pin`, parametrized over the hashing collaborator:
`hash(&self.keystroke_register) == pin_hash`. -/
def is_correct_pin (hash : List Key → Nat) (s : Atm) (pin_hash : Nat) : Bool :=
  hash s.keystroke_register == pin_hash

/-- The inner `map` of `FromKeyVec for u64`: each digit key maps to its digit
character, `Enter` maps to the empty string. We model the character output as
an optional digit value. -/
def key_digit : Key → Option Nat
  | Key.one => some 1
  | Key.two => some 2
  | Key.three => some 3
  | Key.four => some 4
  | Key.enter => none

/-- The digit string `num_string` built in `FromKeyVec for u64`, modelled as
the list of digit values (keys mapping to the empty string contribute
nothing). -/
def num_string (keys : List Key) : List Nat :=
  keys.filterMap key_digit

/-- `u64::MAX`. -/
def U64_MAX : Nat := 2 ^ 64 - 1

/-- Rust `str::parse::<u64>` on a string of decimal digits: fails on the
empty string and on overflow past `u64::MAX`, otherwise returns the decimal
value. (The digit strings produced by `num_string` contain only the
characters 1-4, so no other failure mode can arise.) -/
def parse_u64 (ds : List Nat) : Option Nat :=
  if ds = [] then none
  else
    let v := ds.foldl (fun acc d => 10 * acc + d) 0
    if v ≤ U64_MAX then some v else none

/-- Rust `<u64 as FromKeyVec>::from`: parse the keystroke register as a
base-10 integer, with `unwrap_or(0)` on failure. -/
def from_key_vec (keys : List Key) : Nat :=
  (parse_u64 (num_string keys)).getD 0

/-- Rust `Atm::next_state` (the `StateMachine` impl), parametrized over the
hashing collaborator `crate::hash`. -/
def next_state (hash : List Key → Nat) (s : Atm) (t : Action) : Atm :=
  match s.expected_pin_hash with
  | Auth.waiting =>
    match t with
    | Action.swipeCard code_hash =>
        { s with expected_pin_hash := Auth.authenticating code_hash }
    | _ => s
  | Auth.authenticating pin_hash =>
    match t with
    | Action.pressKey Key.enter =>
        let pin_correct := is_correct_pin hash s pin_hash
        { s with
            keystroke_register := [],
            expected_pin_hash :=
              if pin_correct then Auth.authenticated else Auth.waiting }
    | Action.pressKey key => add_key_to_register s key
    | _ => s
  | Auth.authenticated =>
    match t with
    | Action.pressKey Key.enter =>
        let amount_to_withdraw := from_key_vec s.keystroke_register
        let update_cash :=
          if amount_to_withdraw > s.cash_inside then s.cash_inside
          else s.cash_inside - amount_to_withdraw
        { s with
            cash_inside := update_cash,
            keystroke_register := [],
            expected_pin_hash := Auth.waiting }
    | Action.pressKey key => add_key_to_register s key
    | _ => s

/-- Rust `u64` subtraction as executed by `-`: panics (here `none`) on
underflow. -/
def checked_sub (a b : Nat) : Option Nat :=
  if b ≤ a then some (a - b) else none

/-- `next_state` with every Rust operation that can panic made explicit:
the only such operation is the `u64` subtraction `cash_inside -
amount_to_withdraw` in the withdrawal branch, which executes only when the
guard `amount_to_withdraw > cash_inside` is false. A `none` result would
correspond to a panic of the Rust function. -/
def next_state_checked (hash : List Key → Nat) (s : Atm) (t : Action) :
    Option Atm :=
  match s.expected_pin_hash with
  | Auth.waiting =>
    match t with
    | Action.swipeCard code_hash =>
        some { s with expected_pin_hash := Auth.authenticating code_hash }
    | _ => some s
  | Auth.authenticating pin_hash =>
    match t with
    | Action.pressKey Key.enter =>
        let pin_correct := is_correct_pin hash s pin_hash
        some { s with
                 keystroke_register := [],
                 expected_pin_hash :=
                   if pin_correct then Auth.authenticated else Auth.waiting }
    | Action.pressKey key => some (add_key_to_register s key)
    | _ => some s
  | Auth.authenticated =>
    match t with
    | Action.pressKey Key.enter =>
        let amount_to_withdraw := from_key_vec s.keystroke_register
        match
          (if amount_to_withdraw > s.cash_inside then some s.cash_inside
           else checked_sub s.cash_inside amount_to_withdraw) with
        | none => none
        | some update_cash =>
            some { s with
                     cash_inside := update_cash,
                     keystroke_register := [],
                     expected_pin_hash := Auth.waiting }
    | Action.pressKey key => some (add_key_to_register s key)
    | _ => some s

/-- Run the machine from a starting state through a list of transitions. -/
def run (hash : List Key → Nat) (s : Atm) (ts : List Action) : Atm :=
  ts.foldl (next_state hash) s

/-- The invariant from the spec: while the phase is `Waiting`, the keystroke
register is empty. -/
def WaitingInv (s : Atm) : Prop :=
  s.expected_pin_hash = Auth.waiting → s.keystroke_register = []

/-- Helper: one transition preserves `WaitingInv`. -/
theorem waiting_inv_step (hash : List Key → Nat) (s : Atm) (t : Action)
    (h : WaitingInv s) : WaitingInv (next_state hash s t) := by
  intro hw
  cases hph : s.expected_pin_hash with
  | waiting =>
    cases t with
    | swipeCard c => simp [next_state, hph] at hw
    | pressKey k =>
      simp [next_state, hph] at hw ⊢
      exact h hph
  | authenticating p =>
    cases t with
    | swipeCard c =>
      simp [next_state, hph] at hw
    | pressKey k =>
      cases k <;> simp [next_state, hph, add_key_to_register] at hw ⊢
  | authenticated =>
    cases t with
    | swipeCard c =>
      simp [next_state, hph] at hw
    | pressKey k =>
      cases k <;> simp [next_state, hph, add_key_to_register] at hw ⊢

/-- Helper: `WaitingInv` is preserved along any run. -/
theorem waiting_inv_run (hash : List Key → Nat) (s : Atm) (ts : List Action)
    (h : WaitingInv s) : WaitingInv (run hash s ts) := by
  induction ts generalizing s with
  | nil => exact h
  | cons t ts ih => exact ih (next_state hash s t) (waiting_inv_step hash s t h)

/-- C8: for every state with phase `Waiting`, `next_state` on `SwipeCard fp`
returns a state with phase `Authenticating fp` and with `cash_inside` and the
keystroke register unchanged. -/
theorem c8_swipe_card_starts_session (hash : List Key → Nat) (s : Atm)
    (fp : Nat) (hph : s.expected_pin_hash = Auth.waiting) :
    next_state hash s (Action.swipeCard fp) =
      { s with expected_pin_hash := Auth.authenticating fp } := by
  simp [next_state, hph]

/-- Witness for C8 at a concrete state. -/
theorem c8_swipe_card_starts_session_witness :
    next_state (fun _ => 0) (Atm.mk 10 Auth.waiting []) (Action.swipeCard 1234)
      = Atm.mk 10 (Auth.authenticating 1234) [] :=
  c8_swipe_card_starts_session (fun _ => 0) (Atm.mk 10 Auth.waiting []) 1234 rfl

/-- C9: for every state with phase `Waiting` and every key `k`, `next_state`
on `PressKey k` returns a state equal to the input state. -/
theorem c9_key_before_swipe_is_noop (hash : List Key → Nat) (s : Atm)
    (k : Key) (hph : s.expected_pin_hash = Auth.waiting) :
    next_state hash s (Action.pressKey k) = s := by
  simp [next_state, hph]

/-- Witness for C9 at a concrete state. -/
theorem c9_key_before_swipe_is_noop_witness :
    next_state (fun _ => 0) (Atm.mk 10 Auth.waiting []) (Action.pressKey Key.one)
      = Atm.mk 10 Auth.waiting [] :=
  c9_key_before_swipe_is_noop (fun _ => 0) (Atm.mk 10 Auth.waiting []) Key.one rfl

/-- C4: for every state and every event, the cash inside the state returned
by `next_state` never exceeds the starting cash, and is never negative. -/
theorem c4_cash_never_increases (hash : List Key → Nat) (s : Atm) (t : Action) :
    (next_state hash s t).cash_inside ≤ s.cash_inside ∧
    0 ≤ (next_state hash s t).cash_inside := by
  refine ⟨?_, Nat.zero_le _⟩
  cases hph : s.expected_pin_hash with
  | waiting => cases t <;> simp [next_state, hph]
  | authenticating p =>
    cases t with
    | swipeCard c => simp [next_state, hph]
    | pressKey k => cases k <;> simp [next_state, hph, add_key_to_register]
  | authenticated =>
    cases t with
    | swipeCard c => simp [next_state, hph]
    | pressKey k =>
      cases k <;> simp [next_state, hph, add_key_to_register]
      split
      · exact Nat.le_refl _
      · exact Nat.sub_le _ _

/-- C7: `next_state` is total and never panics: the variant in which every
panicking Rust operation (the `u64` subtraction in the withdrawal branch) is
made explicit always returns `some`, and agrees with `next_state`. -/
theorem c7_total_never_panics (hash : List Key → Nat) (s : Atm) (t : Action) :
    next_state_checked hash s t = some (next_state hash s t) := by
  cases hph : s.expected_pin_hash with
  | waiting => cases t <;> simp [next_state, next_state_checked, hph]
  | authenticating p =>
    cases t with
    | swipeCard c => simp [next_state, next_state_checked, hph]
    | pressKey k => cases k <;> simp [next_state, next_state_checked, hph]
  | authenticated =>
    cases t with
    | swipeCard c => simp [next_state, next_state_checked, hph]
    | pressKey k =>
      cases k <;> simp [next_state, next_state_checked, hph]
      by_cases hgt : from_key_vec s.keystroke_register > s.cash_inside
      · simp [hgt]
      · simp [hgt, checked_sub, Nat.le_of_not_lt hgt]

/-- C3: for every state with phase `Authenticating fp` and register R,
`next_state` on `PressKey Enter` yields phase `Authenticated` with empty
register iff `hash R = fp`, and otherwise phase `Waiting` with empty
register; in both cases the cash is unchanged. -/
theorem c3_pin_verification (hash : List Key → Nat) (s : Atm) (fp : Nat)
    (hph : s.expected_pin_hash = Auth.authenticating fp) :
    (next_state hash s (Action.pressKey Key.enter)).cash_inside = s.cash_inside ∧
    (next_state hash s (Action.pressKey Key.enter)).keystroke_register = [] ∧
    ((next_state hash s (Action.pressKey Key.enter)).expected_pin_hash
        = Auth.authenticated ↔ hash s.keystroke_register = fp) ∧
    (hash s.keystroke_register ≠ fp →
      (next_state hash s (Action.pressKey Key.enter)).expected_pin_hash
        = Auth.waiting) := by
  by_cases hpin : hash s.keystroke_register = fp <;>
    simp [next_state, hph, is_correct_pin, hpin]

/-- Witness for C3 at a concrete state whose (constant) hash matches the
stored fingerprint. -/
theorem c3_pin_verification_witness :
    (next_state (fun _ => 5) (Atm.mk 10 (Auth.authenticating 5) [Key.one])
        (Action.pressKey Key.enter)).cash_inside = 10 ∧
    (next_state (fun _ => 5) (Atm.mk 10 (Auth.authenticating 5) [Key.one])
        (Action.pressKey Key.enter)).keystroke_register = [] ∧
    ((next_state (fun _ => 5) (Atm.mk 10 (Auth.authenticating 5) [Key.one])
        (Action.pressKey Key.enter)).expected_pin_hash = Auth.authenticated ↔
      (fun (_ : List Key) => 5) [Key.one] = 5) ∧
    ((fun (_ : List Key) => 5) [Key.one] ≠ 5 →
      (next_state (fun _ => 5) (Atm.mk 10 (Auth.authenticating 5) [Key.one])
        (Action.pressKey Key.enter)).expected_pin_hash = Auth.waiting) :=
  c3_pin_verification (fun _ => 5) (Atm.mk 10 (Auth.authenticating 5) [Key.one])
    5 rfl

/-- C1 counterexample: at the concrete state with `cash_inside = 10`, phase
`Authenticated` and register `[1, 4]` (representing W = 14), the claimed
equation `cash_inside' = cash_inside - min W cash_inside` fails: the code
leaves the cash at 10, while the claim demands `10 - min 14 10 = 0`. -/
theorem c1_clamped_withdraw_counterexample :
    from_key_vec [Key.one, Key.four] = 14 ∧
    (next_state (fun _ => 0) (Atm.mk 10 Auth.authenticated [Key.one, Key.four])
        (Action.pressKey Key.enter)).cash_inside = 10 ∧
    (next_state (fun _ => 0) (Atm.mk 10 Auth.authenticated [Key.one, Key.four])
        (Action.pressKey Key.enter)).cash_inside ≠
      10 - min (from_key_vec [Key.one, Key.four]) 10 := by
  refine ⟨by decide, rfl, ?_⟩
  decide

/-- C1 amended: for every state with phase `Authenticated` whose register
represents W, `next_state` on `PressKey Enter` subtracts W from the cash
when W does not exceed it and otherwise leaves the cash unchanged (no cash
is dispensed on an over-request); phase becomes `Waiting` and the register
is emptied. -/
theorem c1_withdraw_amended (hash : List Key → Nat) (s : Atm) (W : Nat)
    (hph : s.expected_pin_hash = Auth.authenticated)
    (hW : from_key_vec s.keystroke_register = W) :
    (next_state hash s (Action.pressKey Key.enter)).cash_inside =
      (if W > s.cash_inside then s.cash_inside else s.cash_inside - W) ∧
    (next_state hash s (Action.pressKey Key.enter)).expected_pin_hash
      = Auth.waiting ∧
    (next_state hash s (Action.pressKey Key.enter)).keystroke_register = [] := by
  subst hW
  simp [next_state, hph]

/-- Witness for the amended C1 at a concrete state: withdrawing 1 from 10
leaves 9. -/
theorem c1_withdraw_amended_witness :
    (next_state (fun _ => 0) (Atm.mk 10 Auth.authenticated [Key.one])
        (Action.pressKey Key.enter)).cash_inside =
      (if 1 > 10 then 10 else 10 - 1) ∧
    (next_state (fun _ => 0) (Atm.mk 10 Auth.authenticated [Key.one])
        (Action.pressKey Key.enter)).expected_pin_hash = Auth.waiting ∧
    (next_state (fun _ => 0) (Atm.mk 10 Auth.authenticated [Key.one])
        (Action.pressKey Key.enter)).keystroke_register = [] :=
  c1_withdraw_amended (fun _ => 0) (Atm.mk 10 Auth.authenticated [Key.one])
    1 rfl rfl

/-- C2: for every state with phase `Authenticated` whose register represents
W strictly greater than the cash inside, `next_state` on `PressKey Enter`
leaves the cash unchanged (nothing is dispensed on an over-request), with
phase `Waiting` and an empty register. -/
theorem c2_over_request_dispenses_nothing (hash : List Key → Nat) (s : Atm)
    (W : Nat) (hph : s.expected_pin_hash = Auth.authenticated)
    (hW : from_key_vec s.keystroke_register = W)
    (hgt : W > s.cash_inside) :
    (next_state hash s (Action.pressKey Key.enter)).cash_inside = s.cash_inside ∧
    (next_state hash s (Action.pressKey Key.enter)).expected_pin_hash
      = Auth.waiting ∧
    (next_state hash s (Action.pressKey Key.enter)).keystroke_register = [] := by
  subst hW
  simp [next_state, hph, hgt]

/-- Witness for C2 at a concrete state: requesting 14 from a machine holding
10 leaves the 10 inside. -/
theorem c2_over_request_dispenses_nothing_witness :
    (next_state (fun _ => 0) (Atm.mk 10 Auth.authenticated [Key.one, Key.four])
        (Action.pressKey Key.enter)).cash_inside = 10 ∧
    (next_state (fun _ => 0) (Atm.mk 10 Auth.authenticated [Key.one, Key.four])
        (Action.pressKey Key.enter)).expected_pin_hash = Auth.waiting ∧
    (next_state (fun _ => 0) (Atm.mk 10 Auth.authenticated [Key.one, Key.four])
        (Action.pressKey Key.enter)).keystroke_register = [] :=
  c2_over_request_dispenses_nothing (fun _ => 0)
    (Atm.mk 10 Auth.authenticated [Key.one, Key.four]) 14 rfl rfl (by decide)

/-- C6: for every state with phase `Authenticated` whose register fails to
parse as a base-10 unsigned 64-bit integer (including the empty register),
the withdrawal amount is 0: `next_state` on `PressKey Enter` leaves the cash
unchanged, with phase `Waiting` and an empty register (and, by C7, no error
is signaled). -/
theorem c6_parse_failure_withdraws_zero (hash : List Key → Nat) (s : Atm)
    (hph : s.expected_pin_hash = Auth.authenticated)
    (hpf : parse_u64 (num_string s.keystroke_register) = none) :
    from_key_vec s.keystroke_register = 0 ∧
    (next_state hash s (Action.pressKey Key.enter)).cash_inside = s.cash_inside ∧
    (next_state hash s (Action.pressKey Key.enter)).expected_pin_hash
      = Auth.waiting ∧
    (next_state hash s (Action.pressKey Key.enter)).keystroke_register = [] := by
  have h0 : from_key_vec s.keystroke_register = 0 := by
    simp [from_key_vec, hpf]
  exact ⟨h0, by simp [next_state, hph, h0]⟩

/-- Witness for C6 at a concrete state with an empty register. -/
theorem c6_parse_failure_withdraws_zero_witness :
    from_key_vec ([] : List Key) = 0 ∧
    (next_state (fun _ => 0) (Atm.mk 10 Auth.authenticated [])
        (Action.pressKey Key.enter)).cash_inside = 10 ∧
    (next_state (fun _ => 0) (Atm.mk 10 Auth.authenticated [])
        (Action.pressKey Key.enter)).expected_pin_hash = Auth.waiting ∧
    (next_state (fun _ => 0) (Atm.mk 10 Auth.authenticated [])
        (Action.pressKey Key.enter)).keystroke_register = [] :=
  c6_parse_failure_withdraws_zero (fun _ => 0) (Atm.mk 10 Auth.authenticated [])
    rfl rfl

/-- C5: the predicate "if the phase is `Waiting` then the keystroke register
is empty" is preserved by `next_state` for every event, and holds in every
state reachable (by any run of events) from an initial state with phase
`Waiting` and empty register. -/
theorem c5_waiting_register_empty (hash : List Key → Nat) :
    (∀ s t, WaitingInv s → WaitingInv (next_state hash s t)) ∧
    (∀ s ts, s.expected_pin_hash = Auth.waiting → s.keystroke_register = [] →
      WaitingInv (run hash s ts)) :=
  ⟨fun s t h => waiting_inv_step hash s t h,
   fun s ts _ h2 => waiting_inv_run hash s ts (fun _ => h2)⟩

/-- Witness for C5: the invariant holds after a concrete run from a concrete
initial state. -/
theorem c5_waiting_register_empty_witness :
    (run (fun _ => 0) (Atm.mk 10 Auth.waiting [])
        [Action.swipeCard 7, Action.pressKey Key.one,
         Action.pressKey Key.enter]).keystroke_register = [] :=
  (c5_waiting_register_empty (fun _ => 0)).2 (Atm.mk 10 Auth.waiting [])
    [Action.swipeCard 7, Action.pressKey Key.one, Action.pressKey Key.enter]
    rfl rfl (by decide)

/-- C10: for every state with phase `Authenticating` or `Authenticated` and
every digit key in {1,2,3,4}, `next_state` on that key appends it to the
keystroke register with phase and cash unchanged; consequently the register
after pressing digit 1 and then digit 4 is the old register with [1, 4]
appended. -/
theorem c10_digit_appends_to_register (hash : List Key → Nat) (s : Atm)
    (hph : (∃ fp, s.expected_pin_hash = Auth.authenticating fp) ∨
      s.expected_pin_hash = Auth.authenticated) :
    (∀ k, (k = Key.one ∨ k = Key.two ∨ k = Key.three ∨ k = Key.four) →
      next_state hash s (Action.pressKey k) =
        { s with keystroke_register := s.keystroke_register ++ [k] }) ∧
    (run hash s [Action.pressKey Key.one, Action.pressKey Key.four]).keystroke_register
      = s.keystroke_register ++ [Key.one, Key.four] := by
  constructor
  · intro k hk
    rcases hph with ⟨fp, hph⟩ | hph <;>
      rcases hk with rfl | rfl | rfl | rfl <;>
        simp [next_state, hph, add_key_to_register]
  · rcases hph with ⟨fp, hph⟩ | hph <;>
      simp [run, next_state, hph, add_key_to_register]

/-- Witness for C10 at a concrete state. -/
theorem c10_digit_appends_to_register_witness :
    next_state (fun _ => 0) (Atm.mk 10 Auth.authenticated [Key.one])
        (Action.pressKey Key.four)
      = Atm.mk 10 Auth.authenticated [Key.one, Key.four] :=
  (c10_digit_appends_to_register (fun _ => 0)
      (Atm.mk 10 Auth.authenticated [Key.one]) (Or.inr rfl)).1
    Key.four (Or.inr (Or.inr (Or.inr rfl)))

end ATM
